import Mathlib

/-!
# Verification of the worm.io job hub (`worm.go`)

Shallow embedding of the worm.io hub: worker registry, persistence gate
(the `waitc` channel used as a single-slot mutex), SQLite-backed job store,
cron trigger registration and the execution pipeline that runs when a
trigger fires.

Modelling conventions:
* Go `time.Time` is a `Nat`: absolute seconds since the Unix epoch in the
  process time zone.  Civil fields (second, minute, hour, day, month) are
  computed from it with the standard Gregorian civil-from-days algorithm,
  exactly what Go's `Time.Second/Minute/Hour/Day/Month` return.
* The SQLite database is a list of rows in insertion order (the natural
  row order an unordered `SELECT` yields).
* External effects that can fail nondeterministically (a failing
  `db.Exec`, `os.Create`, the worker's own behaviour, the cron
  expression parser of the external robfig/cron library) are oracle
  parameters, so theorems quantify over every possible outcome.
* The `waitc` channel (buffered, capacity 1, one token pushed by `New`)
  is the persistence gate.  Every embedded store operation emits a trace
  of `GateEvent`s recording when it takes the token (`<-h.waitc`),
  touches the database, and puts the token back (`h.waitc <- o`).
-/

namespace WormIO

/-- Gate protocol events: receiving the token from `waitc`, executing the
database operation, sending the token back. -/
inductive GateEvent where
  | acquire
  | dbop
  | release
deriving Repr, DecidableEq

/-- A registered worker (`Doer`).  Its `Run` behaviour is external code and
is supplied at fire time as a `FireOutcome` oracle; the hub itself only
uses `Name()`. -/
structure Doer where
  name : String
deriving Repr, DecidableEq

/-- One row of the `worm` table (migration `0001_initial.up.sql`).
`error` and `log_file` have schema default `''`; `created_at` is the
UTC timestamp of the insert. -/
structure Row where
  id : String
  worker_name : String
  status : Int
  error : String
  data : String
  log_file : String
  created_at : Nat
deriving Repr, DecidableEq

/-- `StatusStart` — the default (pending) job status. -/
def StatusStart : Int := 1

/-- `StatusOK` — the success status code. -/
def StatusOK : Int := 0

/-- A cron-engine entry created by `Sched`'s `AddFunc` call: the cron
expression plus what the registered closure captured by value
(`jobID`, the doer, the payload). -/
structure Trigger where
  spec : String
  jobID : String
  doerName : String
  data : String
deriving Repr, DecidableEq

/-- The `Worm` hub state: the `doers` registry map, the database rows, the
number of tokens currently sitting in the `waitc` channel, the triggers
registered with the cron engine, the log directory, the filesystem
(path ↦ contents), and the ordered list of executed status-completion
writes (one entry per successful `UPDATE worm SET status=...`). -/
structure WormState where
  doers : List (String × Doer)
  db : List Row
  gate : Nat
  triggers : List Trigger
  logDir : String
  fs : List (String × String)
  statusWrites : List String
deriving Repr, DecidableEq

/-- Look up a row by primary key, as `WHERE id=?` does. -/
def rowOf (h : WormState) (ID : String) : Option Row :=
  h.db.find? (fun r => r.id == ID)

/-- The status column of a row, when the row exists. -/
def statusOf (h : WormState) (ID : String) : Option Int :=
  (rowOf h ID).map (·.status)

/-- `Register` — rejects a nil worker, rejects a duplicate name, otherwise
adds the entry to the registry map.  A nil Go interface value is `none`. -/
def Register (h : WormState) (workerName : String) (doer : Option Doer) :
    Except String Unit × WormState :=
  match doer with
  | none => (.error "nil worker", h)
  | some d =>
    match h.doers.lookup workerName with
    | some _ => (.error "worm: worker already registered", h)
    | none => (.ok (), { h with doers := (workerName, d) :: h.doers })

/-- `store` — looks the worker up under the read lock, then inserts the
initial row under the persistence gate.  The INSERT names only
`(id, worker_name, status, data, created_at)`, so `error` and `log_file`
take the schema defaults `''` and `status` is `StatusStart`.
`jobID` (a fresh UUID), `now` (`time.Now().UTC()`) and `dbFail` (the
outcome of `h.Db.Exec`) are oracle parameters. -/
def store (h : WormState) (workerName dat jobID : String) (now : Nat)
    (dbFail : Option String) :
    Except String (Doer × String) × WormState × List GateEvent :=
  match h.doers.lookup workerName with
  | none => (.error "worm: doer not found", h, [])
  | some doer =>
    match dbFail with
    | some e => (.error e, h, [.acquire, .dbop, .release])
    | none =>
      (.ok (doer, jobID),
       { h with db :=
          h.db ++ [⟨jobID, workerName, StatusStart, "", dat, "", now⟩] },
       [.acquire, .dbop, .release])

/-- `Sched` — stores the row, then registers the trigger with the cron
engine.  `cronErr` is the outcome of the external cron library's
`AddFunc` parse (`some e` for a malformed expression): on parse failure
the already-inserted row stays and no trigger is added. -/
def Sched (h : WormState) (workerName dat cronformat jobID : String)
    (now : Nat) (dbFail : Option String) (cronErr : Option String) :
    Except String String × WormState :=
  match store h workerName dat jobID now dbFail with
  | (.error e, h', _) => (.error e, h')
  | (.ok (doer, jid), h', _) =>
    match cronErr with
    | some e => (.error e, h')
    | none =>
      (.ok jid,
       { h' with triggers := h'.triggers ++ [⟨cronformat, jid, doer.name, dat⟩] })

/-- The decimal digit character for `n < 10`, as `fmt`'s `%v` prints it. -/
def digitChar (n : Nat) : Char := Char.ofNat (48 + n)

/-- Decimal digits of a natural number, most significant first — the
character sequence `fmt.Sprintf("%v", n)` produces for a non-negative
integer. -/
def natDigits (n : Nat) : List Char :=
  if _h : n < 10 then [digitChar n]
  else natDigits (n / 10) ++ [digitChar (n % 10)]
  termination_by n
  decreasing_by exact Nat.div_lt_self (by omega) (by omega)

/-- Decimal string of a natural number. -/
def natRepr (n : Nat) : String := ⟨natDigits n⟩

/-- Gregorian civil date `(year, month, day)` from a day count since
1970-01-01 (the standard civil-from-days algorithm); this is what Go's
`Time.Date` computes for a UTC-normalised instant.  Months are 1–12 as
`int(t.Month())` yields. -/
def civilFromDays (z0 : Nat) : Nat × Nat × Nat :=
  let z := z0 + 719468
  let era := z / 146097
  let doe := z % 146097
  let yoe := (doe - doe / 1460 + doe / 36524 - doe / 146096) / 365
  let doy := doe - (365 * yoe + yoe / 4 - yoe / 100)
  let mp := (5 * doy + 2) / 153
  let d := doy - (153 * mp + 2) / 5 + 1
  let m := if mp < 10 then mp + 3 else mp - 9
  let y := if m ≤ 2 then yoe + era * 400 + 1 else yoe + era * 400
  (y, m, d)

/-- `t.Second()`. -/
def timeSecond (t : Nat) : Nat := t % 60

/-- `t.Minute()`. -/
def timeMinute (t : Nat) : Nat := t / 60 % 60

/-- `t.Hour()`. -/
def timeHour (t : Nat) : Nat := t / 3600 % 24

/-- `t.Day()` — the day of the month, 1–31. -/
def timeDay (t : Nat) : Nat := (civilFromDays (t / 86400)).2.2

/-- `int(t.Month())` — the month, 1–12. -/
def timeMonth (t : Nat) : Nat := (civilFromDays (t / 86400)).2.1

/-- `fmt.Sprintf("%v %v %v %v %v *", a, b, c, d, e)` for five
non-negative integers: each `%v` renders its argument in decimal and the
format string's verbatim characters (the separating spaces and the
trailing `*`) are interleaved as written. -/
def sprintfCron (a b c d e : Nat) : String :=
  ⟨natDigits a ++ ' ' :: (natDigits b ++ ' ' :: (natDigits c ++ ' ' ::
    (natDigits d ++ ' ' :: (natDigits e ++ [' ', '*']))))⟩

/-- `nowCron` — the one-shot cron expression for one second after `t`:
`fmt.Sprintf("%v %v %v %v %v *", u.Second(), u.Minute(), u.Hour(),
u.Day(), int(u.Month()))` where `u = t.Add(1 * time.Second)`. -/
def nowCron (t : Nat) : String :=
  let u := t + 1
  sprintfCron (timeSecond u) (timeMinute u) (timeHour u) (timeDay u)
    (timeMonth u)

/-- `Queue` — schedules via `Sched` with the `nowCron` one-shot expression
for the submission instant. -/
def Queue (h : WormState) (workerName dat jobID : String) (now : Nat)
    (dbFail : Option String) (cronErr : Option String) :
    Except String String × WormState :=
  Sched h workerName dat (nowCron now) jobID now dbFail cronErr

/-- The outcome oracle for one firing of a trigger: whether `os.Create`
in `newLog` succeeded, the `(state, err)` the worker's `Run` returned,
what the worker wrote to its log sink, and the outcome of the final
`UPDATE` exec. -/
structure FireOutcome where
  logCreateOK : Bool
  runStatus : Int
  runErr : Option String
  runOutput : String
  updateFail : Option String
deriving Repr, DecidableEq

/-- The log file name `newLog` builds:
`filepath.Clean(fmt.Sprintf("%s/%s_%s.log", dir, workerName, jobID))`
(`Clean` is the identity on an already-clean directory). -/
def logName (dir workerName jobID : String) : String :=
  dir ++ "/" ++ workerName ++ "_" ++ jobID ++ ".log"

/-- The completion update applied to a row by the pipeline's
`UPDATE worm SET status=?,error=?,log_file=? WHERE id=?`. -/
def completeRow (st : Int) (em ln : String) (r : Row) : Row :=
  { r with status := st, error := em, log_file := ln }

/-- The row-level effect of that `UPDATE`'s `WHERE id=?` clause. -/
def updateRowIf (tj : String) (st : Int) (em ln : String) (r : Row) : Row :=
  if r.id == tj then completeRow st em ln r else r

/-- `errMsg` in the closure: `fmt.Sprintf("%s", jobErr)` when the worker
reported an error, the zero value `""` otherwise. -/
def errMsgOf (runErr : Option String) : String :=
  match runErr with | some e => e | none => ""

/-- The log file's final contents: whatever the worker wrote to the sink,
followed by the `Printf(lOut, "ERROR: %s", jobErr)` line when the worker
reported an error. -/
def logContent (runOutput : String) (runErr : Option String) : String :=
  runOutput ++
    (match runErr with | some e => ("ERROR: " ++ e) ++ "\n" | none => "")

/-- The execution pipeline — the closure `Sched` registers with `AddFunc`,
run once per trigger fire.  If `newLog` fails the closure logs and
returns (no store access).  Otherwise the worker runs, an
`ERROR: <err>` line is appended on worker error, and the completion
`UPDATE worm SET status=?,error=?,log_file=? WHERE id=?` executes under
the gate (recorded in `statusWrites` when it succeeds; a failed update
is only logged).  Returns the new state and the gate-event trace. -/
def fire (h : WormState) (tr : Trigger) (o : FireOutcome) :
    WormState × List GateEvent :=
  if o.logCreateOK then
    let lName := logName h.logDir tr.doerName tr.jobID
    let errMsg := errMsgOf o.runErr
    let content := logContent o.runOutput o.runErr
    let fs' := (lName, content) :: h.fs
    match o.updateFail with
    | some _ => ({ h with fs := fs' }, [.acquire, .dbop, .release])
    | none =>
      ({ h with
          fs := fs',
          db := h.db.map (updateRowIf tr.jobID o.runStatus errMsg lName),
          statusWrites := h.statusWrites ++ [tr.jobID] },
       [.acquire, .dbop, .release])
  else (h, [])

/-- A sequence of trigger firings: each event fires one currently
registered trigger with its outcome oracle (the cron engine only fires
entries it holds). -/
def runFires (h : WormState) (evs : List (Trigger × FireOutcome)) : WormState :=
  match evs with
  | [] => h
  | (tr, o) :: rest =>
    if tr ∈ h.triggers then runFires (fire h tr o).1 rest else runFires h rest

/-- `Detail` — gated `SELECT ... FROM worm WHERE id=?` returning the full
row (the `IFNULL(error,'')` is the identity here because `error` always
holds a string, defaulting to `''`). -/
def Detail (h : WormState) (ID : String) (dbFail : Option String) :
    Except String Row × WormState × List GateEvent :=
  match dbFail with
  | some e => (.error e, h, [.acquire, .dbop, .release])
  | none =>
    match rowOf h ID with
    | none => (.error "sql: no rows in result set", h, [.acquire, .dbop, .release])
    | some r => (.ok r, h, [.acquire, .dbop, .release])

/-- The calendar day index of an instant (days since the epoch) — the
first ten characters of its RFC3339 rendering determine exactly this. -/
def dayOf (t : Nat) : Nat := t / 86400

/-- The SQL text comparison `created_at BETWEEN ? AND ?` as `Query` issues
it.  The bounds are bound as bare 10-character date strings
(`before.Format(time.RFC3339)[:10]`), while `created_at` holds the
driver's full `YYYY-MM-DD HH:MM:SS...` rendering.  Under binary text
collation a full datetime string compares against a bare date string of
day `d` as: `ts ≥ d` iff `dayOf ts ≥ d` (equal-day strings extend the
date, so compare greater) and `ts ≤ d` iff `dayOf ts < d`. -/
def betweenDates (t lo hi : Nat) : Bool :=
  decide (lo ≤ dayOf t) && decide (dayOf t < hi)

/-- SQLite `LIMIT ?` semantics: a negative limit means no upper bound. -/
def sqliteLimit (lim : Int) (xs : List Row) : List Row :=
  if lim < 0 then xs else xs.take lim.toNat

/-- `Query` — gated
`SELECT ... FROM worm WHERE created_at BETWEEN ? AND ? LIMIT ?`, the
bounds truncated to their dates as described at `betweenDates`. -/
def Query (h : WormState) (before aft : Nat) (lim : Int)
    (dbFail : Option String) :
    Except String (List Row) × List GateEvent :=
  match dbFail with
  | some e => (.error e, [.acquire, .dbop, .release])
  | none =>
    (.ok (sqliteLimit lim
      (h.db.filter (fun r => betweenDates r.created_at (dayOf before) (dayOf aft)))),
     [.acquire, .dbop, .release])

/-- `CopyLog` — gated `SELECT log_file FROM worm WHERE id=?`, then
`os.Open` on the stored path and `io.Copy` into the writer `w`
(modelled as the writer's accumulated string).  The empty path never
names a file: `open("")` fails with `ENOENT`, so a pending job whose
`log_file` is still the schema default `''` yields an open error. -/
def CopyLog (h : WormState) (w : String) (jobID : String)
    (dbFail : Option String) :
    Except String Unit × String × List GateEvent :=
  match dbFail with
  | some e => (.error e, w, [.acquire, .dbop, .release])
  | none =>
    match rowOf h jobID with
    | none => (.error "sql: no rows in result set", w, [.acquire, .dbop, .release])
    | some r =>
      match (if r.log_file == "" then none else h.fs.lookup r.log_file) with
      | none =>
        (.error ("open " ++ r.log_file ++ ": no such file or directory"), w,
         [.acquire, .dbop, .release])
      | some content => (.ok (), w ++ content, [.acquire, .dbop, .release])

/-- The result of `New`: the constructed hub or the error, plus whether
`sqlx.Connect` was ever attempted. -/
structure NewResult where
  result : Except String WormState
  dbConnectAttempted : Bool
deriving Repr

/-- `New` — rejects an empty log directory (`len(logDir) < 1`) before
dialling the database; on success builds the hub with an empty registry,
a buffered `waitc` channel of capacity 1 holding one token (`gate = 1`),
and starts the cron engine.  `connectFail` is the `sqlx.Connect`
outcome oracle. -/
def NewW (logDir : String) (connectFail : Option String) : NewResult :=
  if logDir.length < 1 then ⟨.error "log directory not set", false⟩
  else
    match connectFail with
    | some e => ⟨.error e, true⟩
    | none => ⟨.ok ⟨[], [], 1, [], logDir, [], []⟩, true⟩

/-- `Connect` — `defaultWorm, err = New(connectURL, logDir)`: the default
hub is assigned the (possibly nil) result unconditionally. -/
def ConnectW (_prev : Option WormState) (logDir : String)
    (connectFail : Option String) : Option WormState × Except String Unit :=
  match (NewW logDir connectFail).result with
  | .error e => (none, .error e)
  | .ok w => (some w, .ok ())

theorem updateRowIf_id (tj : String) (st : Int) (em ln : String) (r : Row) :
    (updateRowIf tj st em ln r).id = r.id := by
  unfold updateRowIf completeRow
  split <;> rfl

theorem find?_append_right {p : Row → Bool} (l1 l2 : List Row)
    (h : ∀ r ∈ l1, p r = false) : (l1 ++ l2).find? p = l2.find? p := by
  induction l1 with
  | nil => rfl
  | cons a l ih =>
    have ha : p a = false := h a (by simp)
    simp only [List.cons_append, List.find?_cons, ha]
    exact ih (fun r hr => h r (by simp [hr]))

theorem find?_map_update (db : List Row) (tj : String) (st : Int) (em ln : String) :
    (db.map (updateRowIf tj st em ln)).find? (fun x => x.id == tj)
      = (db.find? (fun x => x.id == tj)).map (completeRow st em ln) := by
  induction db with
  | nil => rfl
  | cons a l ih =>
    by_cases ha : (a.id == tj) = true
    · have hupda : ((updateRowIf tj st em ln a).id == tj) = true := by
        rw [updateRowIf_id]; exact ha
      simp only [List.map_cons, List.find?_cons, hupda, ha]
      simp [updateRowIf, ha]
    · have ha' : (a.id == tj) = false := by simpa using ha
      have hupda : ((updateRowIf tj st em ln a).id == tj) = false := by
        rw [updateRowIf_id]; exact ha'
      simp only [List.map_cons, List.find?_cons, hupda, ha']
      exact ih

theorem find?_map_update_ne (db : List Row) (tj jid : String) (hne : tj ≠ jid)
    (st : Int) (em ln : String) :
    (db.map (updateRowIf tj st em ln)).find? (fun x => x.id == jid)
      = db.find? (fun x => x.id == jid) := by
  induction db with
  | nil => rfl
  | cons a l ih =>
    by_cases ha : (a.id == jid) = true
    · have haeq : a.id = jid := by simpa using ha
      have hf : (a.id == tj) = false := by
        rw [haeq]
        simpa using Ne.symm hne
      have hupd : updateRowIf tj st em ln a = a := by
        simp [updateRowIf, hf]
      simp only [List.map_cons, hupd, List.find?_cons, ha]
    · have ha' : (a.id == jid) = false := by simpa using ha
      have hupda : ((updateRowIf tj st em ln a).id == jid) = false := by
        rw [updateRowIf_id]; exact ha'
      simp only [List.map_cons, List.find?_cons, hupda, ha']
      exact ih

/-- A sample hub with one registered worker `"w"`, fresh from `New`. -/
def sampleHub : WormState := ⟨[("w", ⟨"w"⟩)], [], 1, [], "logs", [], []⟩

/-- C8: `Register` rejects a nil handler with `"nil worker"`, rejects an
already-registered name with the distinct error
`"worm: worker already registered"`, leaves the registry unchanged in both
error cases, and two registrations under distinct fresh names both
succeed. -/
theorem register_error_cases (h : WormState) (n n1 n2 : String)
    (d d0 d1 d2 : Doer)
    (hdup : h.doers.lookup n = some d0)
    (h1 : h.doers.lookup n1 = none) (h2 : h.doers.lookup n2 = none)
    (hne : n1 ≠ n2) :
    Register h n none = (.error "nil worker", h) ∧
    Register h n (some d) = (.error "worm: worker already registered", h) ∧
    ("nil worker" : String) ≠ "worm: worker already registered" ∧
    (Register h n1 (some d1)).1 = .ok () ∧
    (Register (Register h n1 (some d1)).2 n2 (some d2)).1 = .ok () := by
  refine ⟨rfl, ?_, by decide, ?_, ?_⟩
  · simp [Register, hdup]
  · simp [Register, h1]
  · have : ((n2 == n1) : Bool) = false := by simp [Ne.symm hne]
    simp [Register, h1, h2, List.lookup, this]

/-- C8 witness: a concrete run of all four `Register` scenarios. -/
theorem register_error_cases_witness :
    Register sampleHub "w" none = (.error "nil worker", sampleHub) ∧
    Register sampleHub "w" (some ⟨"w2"⟩) =
      (.error "worm: worker already registered", sampleHub) ∧
    ("nil worker" : String) ≠ "worm: worker already registered" ∧
    (Register sampleHub "a" (some ⟨"a"⟩)).1 = .ok () ∧
    (Register (Register sampleHub "a" (some ⟨"a"⟩)).2 "b" (some ⟨"b"⟩)).1 = .ok () :=
  register_error_cases sampleHub "w" "a" "b" ⟨"w2"⟩ ⟨"w"⟩ ⟨"a"⟩ ⟨"b"⟩
    (by decide) (by decide) (by decide) (by decide)

/-- C9: `New` with an empty log directory fails with
`"log directory not set"` before any database connection is attempted,
and `Connect` leaves the default hub nil (whatever it was before). -/
theorem new_empty_logdir (logDir : String) (cf : Option String)
    (prev : Option WormState) (hempty : logDir = "") :
    NewW logDir cf = ⟨.error "log directory not set", false⟩ ∧
    ConnectW prev logDir cf = (none, .error "log directory not set") := by
  subst hempty
  exact ⟨rfl, rfl⟩

/-- C9 witness: concrete empty-log-directory construction attempts. -/
theorem new_empty_logdir_witness :
    NewW "" (some "dial error") = ⟨.error "log directory not set", false⟩ ∧
    ConnectW (some sampleHub) "" (some "dial error") =
      (none, .error "log directory not set") :=
  new_empty_logdir "" (some "dial error") (some sampleHub) rfl

/-- C10: for an existing job whose `log_file` still holds the schema
default `''` (execution not yet completed), `CopyLog` returns the
empty-path open error and writes nothing to the destination writer. -/
theorem copylog_pending_error (h : WormState) (w jobID : String) (r : Row)
    (hrow : rowOf h jobID = some r) (hlf : r.log_file = "") :
    (CopyLog h w jobID none).1 = .error "open : no such file or directory" ∧
    (CopyLog h w jobID none).2.1 = w := by
  simp [CopyLog, hrow, hlf]

/-- C10 witness: a concrete pending job whose log copy fails cleanly. -/
theorem copylog_pending_error_witness :
    (CopyLog ⟨[("w", ⟨"w"⟩)], [⟨"j1", "w", 1, "", "d", "", 0⟩], 1, [], "logs", [], []⟩
        "out" "j1" none).1 = .error "open : no such file or directory" ∧
    (CopyLog ⟨[("w", ⟨"w"⟩)], [⟨"j1", "w", 1, "", "d", "", 0⟩], 1, [], "logs", [], []⟩
        "out" "j1" none).2.1 = "out" :=
  copylog_pending_error _ "out" "j1" ⟨"j1", "w", 1, "", "d", "", 0⟩ (by decide) rfl

/-- C2: every store operation — the insert in `store`, the status update
in the trigger closure, the detail lookup, the range query and the
log-path lookup in `CopyLog` — follows the persistence-gate protocol:
it takes the single token (`New` creates the gate with exactly one slot),
performs the database operation, puts the token back on every exit path
including a failing database operation, and hands the database error
back unchanged where the operation has a caller. -/
theorem gate_protocol (h : WormState) (wn dat jid ID w ld : String)
    (now bef aft : Nat) (lim : Int) (tr : Trigger) (o : FireOutcome)
    (df : Option String) (e : String) (d : Doer) (w' : WormState)
    (hreg : h.doers.lookup wn = some d)
    (hlog : o.logCreateOK = true)
    (hnew : (NewW ld none).result = .ok w') :
    w'.gate = 1 ∧
    (store h wn dat jid now df).2.2 = [.acquire, .dbop, .release] ∧
    (store h wn dat jid now df).2.1.gate = h.gate ∧
    (store h wn dat jid now (some e)).1 = .error e ∧
    (fire h tr o).2 = [.acquire, .dbop, .release] ∧
    (fire h tr o).1.gate = h.gate ∧
    (Detail h ID df).2.2 = [.acquire, .dbop, .release] ∧
    (Detail h ID df).2.1 = h ∧
    (Detail h ID (some e)).1 = .error e ∧
    (Query h bef aft lim df).2 = [.acquire, .dbop, .release] ∧
    (Query h bef aft lim (some e)).1 = .error e ∧
    (CopyLog h w ID df).2.2 = [.acquire, .dbop, .release] ∧
    (CopyLog h w ID (some e)).1 = .error e := by
  refine ⟨?_, ?_, ?_, ?_, ?_, ?_, ?_, ?_, ?_, ?_, ?_, ?_, ?_⟩
  · unfold NewW at hnew
    by_cases hld : ld.length < 1
    · rw [if_pos hld] at hnew
      exact absurd hnew (by simp)
    · rw [if_neg hld] at hnew
      cases hnew
      rfl
  · cases df <;> simp [store, hreg]
  · cases df <;> simp [store, hreg]
  · simp [store, hreg]
  · cases hu : o.updateFail <;> simp [fire, hlog, hu]
  · cases hu : o.updateFail <;> simp [fire, hlog, hu]
  · cases df <;> simp [Detail] <;> cases rowOf h ID <;> simp
  · cases df <;> simp [Detail] <;> cases rowOf h ID <;> simp
  · simp [Detail]
  · cases df <;> simp [Query]
  · simp [Query]
  · cases df with
    | some e' => simp [CopyLog]
    | none =>
      cases hr : rowOf h ID with
      | none => simp [CopyLog, hr]
      | some r =>
        by_cases hlf : (r.log_file == "") = true <;>
          simp [CopyLog, hr, hlf] <;>
          cases h.fs.lookup r.log_file <;> simp
  · simp [CopyLog]

/-- C2 witness: the gate protocol at a concrete hub, job and outcome. -/
theorem gate_protocol_witness :
    ((⟨[], [], 1, [], "logs", [], []⟩ : WormState).gate = 1 ∧
      (store sampleHub "w" "d" "j1" 0 (some "disk full")).2.2 =
        [.acquire, .dbop, .release] ∧
      (store sampleHub "w" "d" "j1" 0 (some "disk full")).2.1.gate =
        sampleHub.gate ∧
      (store sampleHub "w" "d" "j1" 0 (some "disk full")).1 =
        .error "disk full" ∧
      (fire sampleHub ⟨"* * * * * *", "j1", "w", "d"⟩
            ⟨true, 0, none, "", some "locked"⟩).2 =
        [.acquire, .dbop, .release] ∧
      (fire sampleHub ⟨"* * * * * *", "j1", "w", "d"⟩
            ⟨true, 0, none, "", some "locked"⟩).1.gate = sampleHub.gate ∧
      (Detail sampleHub "j1" (some "disk full")).2.2 =
        [.acquire, .dbop, .release] ∧
      (Detail sampleHub "j1" (some "disk full")).2.1 = sampleHub ∧
      (Detail sampleHub "j1" (some "disk full")).1 = .error "disk full" ∧
      (Query sampleHub 0 99 5 (some "disk full")).2 =
        [.acquire, .dbop, .release] ∧
      (Query sampleHub 0 99 5 (some "disk full")).1 = .error "disk full" ∧
      (CopyLog sampleHub "out" "j1" (some "disk full")).2.2 =
        [.acquire, .dbop, .release] ∧
      (CopyLog sampleHub "out" "j1" (some "disk full")).1 =
        .error "disk full") :=
  gate_protocol sampleHub "w" "d" "j1" "j1" "out" "logs" 0 0 99 5
    ⟨"* * * * * *", "j1", "w", "d"⟩ ⟨true, 0, none, "", some "locked"⟩
    (some "disk full") "disk full" ⟨"w"⟩ ⟨[], [], 1, [], "logs", [], []⟩
    (by decide) rfl rfl

/-- C4: after any valid submission (registered worker, committed insert,
fresh id) and before any trigger fires, `Detail` of the returned job id
yields the pending row: `status = 1`, `error = ""`, `log_file = ""`. -/
theorem detail_after_submit (h : WormState) (wn dat cf jid : String)
    (now : Nat) (d : Doer)
    (hreg : h.doers.lookup wn = some d)
    (hfresh : ∀ r ∈ h.db, r.id ≠ jid) :
    (Sched h wn dat cf jid now none none).1 = .ok jid ∧
    (Detail (Sched h wn dat cf jid now none none).2 jid none).1 =
      .ok ⟨jid, wn, 1, "", dat, "", now⟩ := by
  have hdb : (Sched h wn dat cf jid now none none).2.db
      = h.db ++ [⟨jid, wn, 1, "", dat, "", now⟩] := by
    simp [Sched, store, hreg, StatusStart]
  refine ⟨by simp [Sched, store, hreg], ?_⟩
  have hrow : rowOf (Sched h wn dat cf jid now none none).2 jid
      = some ⟨jid, wn, 1, "", dat, "", now⟩ := by
    unfold rowOf
    rw [hdb, find?_append_right _ _ (fun r hr => by simpa using hfresh r hr)]
    simp
  simp [Detail, hrow]

/-- C4 witness: a concrete submission and its immediate detail lookup. -/
theorem detail_after_submit_witness :
    (Sched sampleHub "w" "d" "0 0 * * * *" "j1" 5 none none).1 = .ok "j1" ∧
    (Detail (Sched sampleHub "w" "d" "0 0 * * * *" "j1" 5 none none).2
        "j1" none).1 = .ok ⟨"j1", "w", 1, "", "d", "", 5⟩ :=
  detail_after_submit sampleHub "w" "d" "0 0 * * * *" "j1" 5 ⟨"w"⟩
    (by decide) (by decide)

/-- C5: when a job's trigger fires and the worker returns status `3` with
error `"boom"`, the subsequent `Detail` shows `status = 3`,
`error = "boom"`, and the job's log file ends with the `ERROR: boom`
line the pipeline appended after the worker's own output, before the
sink was closed. -/
theorem detail_after_failed_run (h : WormState) (tr : Trigger)
    (out : String) (r : Row)
    (hrow : rowOf h tr.jobID = some r) :
    (Detail (fire h tr ⟨true, 3, some "boom", out, none⟩).1 tr.jobID none).1 =
      .ok { r with status := 3, error := "boom",
                   log_file := logName h.logDir tr.doerName tr.jobID } ∧
    (fire h tr ⟨true, 3, some "boom", out, none⟩).1.fs.lookup
        (logName h.logDir tr.doerName tr.jobID) =
      some (out ++ "ERROR: boom\n") := by
  have hdb : (fire h tr ⟨true, 3, some "boom", out, none⟩).1.db
      = h.db.map (updateRowIf tr.jobID 3 "boom"
          (logName h.logDir tr.doerName tr.jobID)) := by
    simp [fire, errMsgOf]
  have hrow' : rowOf (fire h tr ⟨true, 3, some "boom", out, none⟩).1 tr.jobID
      = some (completeRow 3 "boom" (logName h.logDir tr.doerName tr.jobID) r) := by
    unfold rowOf
    rw [hdb, find?_map_update]
    rw [show h.db.find? (fun x => x.id == tr.jobID) = some r from hrow]
    rfl
  have hlit : (("ERROR: " ++ "boom") ++ "\n" : String) = "ERROR: boom\n" := rfl
  refine ⟨by simp [Detail, hrow', completeRow], ?_⟩
  simp [fire, List.lookup, logContent, hlit]

/-- C5 witness: a concrete failing run observed through `Detail` and the
log file. -/
theorem detail_after_failed_run_witness :
    (Detail (fire ⟨[("w", ⟨"w"⟩)], [⟨"j1", "w", 1, "", "d", "", 0⟩], 1,
          [⟨"* * * * * *", "j1", "w", "d"⟩], "logs", [], []⟩
        ⟨"* * * * * *", "j1", "w", "d"⟩
        ⟨true, 3, some "boom", "worker output\n", none⟩).1 "j1" none).1 =
      .ok ⟨"j1", "w", 3, "boom", "d", "logs/w_j1.log", 0⟩ ∧
    (fire ⟨[("w", ⟨"w"⟩)], [⟨"j1", "w", 1, "", "d", "", 0⟩], 1,
          [⟨"* * * * * *", "j1", "w", "d"⟩], "logs", [], []⟩
        ⟨"* * * * * *", "j1", "w", "d"⟩
        ⟨true, 3, some "boom", "worker output\n", none⟩).1.fs.lookup
        "logs/w_j1.log" =
      some ("worker output\n" ++ "ERROR: boom\n") :=
  detail_after_failed_run
    ⟨[("w", ⟨"w"⟩)], [⟨"j1", "w", 1, "", "d", "", 0⟩], 1,
      [⟨"* * * * * *", "j1", "w", "d"⟩], "logs", [], []⟩
    ⟨"* * * * * *", "j1", "w", "d"⟩ "worker output\n"
    ⟨"j1", "w", 1, "", "d", "", 0⟩ (by decide)

theorem fire_triggers (h : WormState) (tr : Trigger) (o : FireOutcome) :
    (fire h tr o).1.triggers = h.triggers := by
  cases hl : o.logCreateOK with
  | false => simp [fire, hl]
  | true => cases hu : o.updateFail <;> simp [fire, hl, hu]

theorem rowOf_fire_ne (h : WormState) (tr : Trigger) (o : FireOutcome)
    (jid : String) (hne : tr.jobID ≠ jid) :
    rowOf (fire h tr o).1 jid = rowOf h jid := by
  cases hl : o.logCreateOK with
  | false => simp [fire, hl, rowOf]
  | true =>
    cases hu : o.updateFail with
    | some e => simp [fire, hl, hu, rowOf]
    | none =>
      have hdb : (fire h tr o).1.db
          = h.db.map (updateRowIf tr.jobID o.runStatus (errMsgOf o.runErr)
              (logName h.logDir tr.doerName tr.jobID)) := by
        simp [fire, hl, hu]
      unfold rowOf
      rw [hdb, find?_map_update_ne _ _ _ hne]

theorem runFires_pending (h : WormState) (jid : String)
    (evs : List (Trigger × FireOutcome))
    (hno : ∀ tr ∈ h.triggers, tr.jobID ≠ jid) :
    rowOf (runFires h evs) jid = rowOf h jid := by
  induction evs generalizing h with
  | nil => rfl
  | cons ev rest ih =>
    obtain ⟨tr, o⟩ := ev
    simp only [runFires]
    by_cases htr : tr ∈ h.triggers
    · rw [if_pos htr]
      have h1 := ih (fire h tr o).1 (by rw [fire_triggers]; exact hno)
      rw [h1, rowOf_fire_ne h tr o jid (hno tr htr)]
    · rw [if_neg htr]
      exact ih h hno

/-- C1 (amended): a scheduling error is returned synchronously in both
cases, but the two cases leave different state behind.  An unknown
worker name is rejected by `store`'s registry lookup before the insert,
so no Job row exists and the hub is unchanged.  A malformed cron
expression is rejected by `AddFunc` after the insert committed, so the
Job row exists at the pending status with no trigger registered for it,
and stays pending under every possible sequence of trigger firings. -/
theorem sched_error_rollback (h : WormState)
    (wnU wnK dat cf jid ce : String) (now : Nat) (d : Doer)
    (hnone : h.doers.lookup wnU = none)
    (hreg : h.doers.lookup wnK = some d)
    (hfresh : ∀ r ∈ h.db, r.id ≠ jid)
    (hnotrig : ∀ tr ∈ h.triggers, tr.jobID ≠ jid) :
    Sched h wnU dat cf jid now none (some ce) =
      (.error "worm: doer not found", h) ∧
    (Sched h wnK dat cf jid now none (some ce)).1 = .error ce ∧
    rowOf (Sched h wnK dat cf jid now none (some ce)).2 jid =
      some ⟨jid, wnK, 1, "", dat, "", now⟩ ∧
    (∀ tr ∈ (Sched h wnK dat cf jid now none (some ce)).2.triggers,
      tr.jobID ≠ jid) ∧
    (∀ evs, statusOf
      (runFires (Sched h wnK dat cf jid now none (some ce)).2 evs) jid =
        some 1) := by
  have hS : (Sched h wnK dat cf jid now none (some ce)).2
      = { h with db := h.db ++ [⟨jid, wnK, 1, "", dat, "", now⟩] } := by
    simp [Sched, store, hreg, StatusStart]
  have hrow : rowOf (Sched h wnK dat cf jid now none (some ce)).2 jid
      = some ⟨jid, wnK, 1, "", dat, "", now⟩ := by
    rw [hS]
    unfold rowOf
    show (h.db ++ [(⟨jid, wnK, 1, "", dat, "", now⟩ : Row)]).find?
        (fun r => r.id == jid) =
      some ⟨jid, wnK, 1, "", dat, "", now⟩
    rw [find?_append_right _ _ (fun r hr => by simpa using hfresh r hr)]
    simp
  refine ⟨by simp [Sched, store, hnone], by simp [Sched, store, hreg], hrow,
    ?_, ?_⟩
  · rw [hS]
    exact hnotrig
  · intro evs
    unfold statusOf
    rw [runFires_pending _ _ _ (by rw [hS]; exact hnotrig), hrow]
    rfl

/-- C1 witness: both error cases at a concrete hub — the unknown worker
`"nope"` and a malformed expression submitted for the registered
worker `"w"`. -/
theorem sched_error_rollback_witness :
    Sched sampleHub "nope" "d" "bad cron" "j1" 7 none
        (some "expected 5 to 6 fields") =
      (.error "worm: doer not found", sampleHub) ∧
    (Sched sampleHub "w" "d" "bad cron" "j1" 7 none
        (some "expected 5 to 6 fields")).1 = .error "expected 5 to 6 fields" ∧
    rowOf (Sched sampleHub "w" "d" "bad cron" "j1" 7 none
        (some "expected 5 to 6 fields")).2 "j1" =
      some ⟨"j1", "w", 1, "", "d", "", 7⟩ ∧
    (∀ tr ∈ (Sched sampleHub "w" "d" "bad cron" "j1" 7 none
        (some "expected 5 to 6 fields")).2.triggers, tr.jobID ≠ "j1") ∧
    (∀ evs, statusOf
      (runFires (Sched sampleHub "w" "d" "bad cron" "j1" 7 none
        (some "expected 5 to 6 fields")).2 evs) "j1" = some 1) :=
  sched_error_rollback sampleHub "nope" "w" "d" "bad cron" "j1"
    "expected 5 to 6 fields" 7 ⟨"w"⟩ (by decide) (by decide) (by decide)
    (by decide)

/-- C1 counterexample: the claim as stated requires the Job row to exist
whenever a scheduling error (including an unknown worker name) is
returned; here `Sched` returns the unknown-worker error while the store
holds no row at all for the submission. -/
theorem sched_unknown_worker_no_row :
    (Sched sampleHub "nope" "d" "* * * * * *" "j1" 0 none none).1 =
      .error "worm: doer not found" ∧
    (Sched sampleHub "nope" "d" "* * * * * *" "j1" 0 none none).2.db = [] :=
  ⟨rfl, rfl⟩

/-- C3 (amended): the status field is written only by the execution
pipeline's completion write after the worker returns, and each trigger
fire performs exactly one such write (none when log-sink creation
fails).  A trigger that fires exactly once therefore mutates status
exactly once; a caller-supplied recurring cron expression fires its
trigger repeatedly and performs one completion write per fire, so for
such triggers the status is written once per fire, not once per job
lifetime. -/
theorem fire_one_write_per_fire (h : WormState) (tr : Trigger)
    (o : FireOutcome) (htr : tr ∈ h.triggers)
    (hlog : o.logCreateOK = true) (hupd : o.updateFail = none) :
    (runFires h [(tr, o)]).statusWrites = h.statusWrites ++ [tr.jobID] ∧
    statusOf (runFires h [(tr, o)]) tr.jobID =
      (rowOf h tr.jobID).map (fun _ => o.runStatus) ∧
    (∀ o' : FireOutcome, o'.logCreateOK = false → (fire h tr o').1 = h) := by
  have hrun : runFires h [(tr, o)] = (fire h tr o).1 := by
    simp only [runFires, if_pos htr]
  refine ⟨?_, ?_, ?_⟩
  · rw [hrun]
    simp [fire, hlog, hupd]
  · rw [hrun]
    unfold statusOf rowOf
    have hdb : (fire h tr o).1.db
        = h.db.map (updateRowIf tr.jobID o.runStatus (errMsgOf o.runErr)
            (logName h.logDir tr.doerName tr.jobID)) := by
      simp [fire, hlog, hupd]
    rw [hdb, find?_map_update]
    cases h.db.find? (fun x => x.id == tr.jobID) <;> simp [completeRow]
  · intro o' ho'
    simp [fire, ho']

/-- C3 witness: one fire of a registered trigger performs exactly one
completion write and moves the pending row to the worker's status. -/
theorem fire_one_write_per_fire_witness :
    (runFires
        ⟨[("w", ⟨"w"⟩)], [⟨"j1", "w", 1, "", "d", "", 0⟩], 1,
          [⟨"0 0 * * * *", "j1", "w", "d"⟩], "logs", [], []⟩
        [(⟨"0 0 * * * *", "j1", "w", "d"⟩, ⟨true, 0, none, "ok\n", none⟩)]
      ).statusWrites = [] ++ ["j1"] ∧
    statusOf (runFires
        ⟨[("w", ⟨"w"⟩)], [⟨"j1", "w", 1, "", "d", "", 0⟩], 1,
          [⟨"0 0 * * * *", "j1", "w", "d"⟩], "logs", [], []⟩
        [(⟨"0 0 * * * *", "j1", "w", "d"⟩, ⟨true, 0, none, "ok\n", none⟩)])
      "j1" =
      (rowOf ⟨[("w", ⟨"w"⟩)], [⟨"j1", "w", 1, "", "d", "", 0⟩], 1,
          [⟨"0 0 * * * *", "j1", "w", "d"⟩], "logs", [], []⟩ "j1").map
        (fun _ => 0) ∧
    (∀ o' : FireOutcome, o'.logCreateOK = false →
      (fire ⟨[("w", ⟨"w"⟩)], [⟨"j1", "w", 1, "", "d", "", 0⟩], 1,
          [⟨"0 0 * * * *", "j1", "w", "d"⟩], "logs", [], []⟩
        ⟨"0 0 * * * *", "j1", "w", "d"⟩ o').1 =
      ⟨[("w", ⟨"w"⟩)], [⟨"j1", "w", 1, "", "d", "", 0⟩], 1,
          [⟨"0 0 * * * *", "j1", "w", "d"⟩], "logs", [], []⟩) :=
  fire_one_write_per_fire
    ⟨[("w", ⟨"w"⟩)], [⟨"j1", "w", 1, "", "d", "", 0⟩], 1,
      [⟨"0 0 * * * *", "j1", "w", "d"⟩], "logs", [], []⟩
    ⟨"0 0 * * * *", "j1", "w", "d"⟩ ⟨true, 0, none, "ok\n", none⟩
    (by decide) rfl rfl

/-- A hub holding one pending job bound to a recurring trigger. -/
def recurHub : WormState :=
  ⟨[("w", ⟨"w"⟩)], [⟨"j1", "w", 1, "", "d", "", 0⟩], 1,
    [⟨"*/1 * * * * *", "j1", "w", "d"⟩], "logs", [], []⟩

/-- C3 counterexample: with a caller-supplied recurring cron expression
the trigger fires repeatedly and the pipeline performs one completion
write per fire — here two fires of the same trigger write the job's
status twice (to 2, then to 5), refuting "mutated exactly once over the
job's lifetime ... for every possible trigger". -/
theorem recurring_trigger_writes_twice :
    statusOf (runFires recurHub
      [(⟨"*/1 * * * * *", "j1", "w", "d"⟩, ⟨true, 2, none, "", none⟩)])
      "j1" = some 2 ∧
    statusOf (runFires recurHub
      [(⟨"*/1 * * * * *", "j1", "w", "d"⟩, ⟨true, 2, none, "", none⟩),
       (⟨"*/1 * * * * *", "j1", "w", "d"⟩, ⟨true, 5, none, "", none⟩)])
      "j1" = some 5 ∧
    (runFires recurHub
      [(⟨"*/1 * * * * *", "j1", "w", "d"⟩, ⟨true, 2, none, "", none⟩),
       (⟨"*/1 * * * * *", "j1", "w", "d"⟩, ⟨true, 5, none, "", none⟩)]
      ).statusWrites = ["j1", "j1"] := by
  refine ⟨rfl, rfl, rfl⟩

/-- C6 (amended): for a non-negative limit, `Query` returns at most
`limit` rows, and every returned row's `created_at` lies on a calendar
day in `[day(before), day(after))`: because both bounds are truncated
to bare 10-character date strings while `created_at` holds a full
datetime string, the text `BETWEEN` only constrains the date part, so a
row earlier than `before` on `before`'s own day can be returned and any
row on `after`'s own day is excluded. -/
theorem query_limit_and_window (h : WormState) (bef aft : Nat) (lim : Int)
    (rows : List Row) (hlim : 0 ≤ lim)
    (hq : (Query h bef aft lim none).1 = .ok rows) :
    rows.length ≤ lim.toNat ∧
    ∀ r ∈ rows, dayOf bef ≤ dayOf r.created_at ∧
      dayOf r.created_at < dayOf aft := by
  have hrows : rows = sqliteLimit lim
      (h.db.filter (fun r => betweenDates r.created_at (dayOf bef) (dayOf aft))) := by
    simpa [Query] using hq.symm
  have hneg : ¬ lim < 0 := by omega
  subst hrows
  constructor
  · simp only [sqliteLimit, if_neg hneg]
    calc (List.take lim.toNat _).length ≤ lim.toNat := by
          simp [List.length_take]
    _ = lim.toNat := rfl
  · intro r hr
    have hr' : r ∈ h.db.filter
        (fun r => betweenDates r.created_at (dayOf bef) (dayOf aft)) := by
      simp only [sqliteLimit, if_neg hneg] at hr
      exact List.mem_of_mem_take hr
    have hb := (List.mem_filter.mp hr').2
    simp only [betweenDates, Bool.and_eq_true, decide_eq_true_eq] at hb
    exact hb

/-- C6 witness: a concrete query respecting the limit and the
date-granularity window. -/
theorem query_limit_and_window_witness :
    ([⟨"j1", "w", 1, "", "d", "", 90000⟩] : List Row).length ≤ (5 : Int).toNat ∧
    ∀ r ∈ ([⟨"j1", "w", 1, "", "d", "", 90000⟩] : List Row),
      dayOf 86400 ≤ dayOf r.created_at ∧ dayOf r.created_at < dayOf 172800 :=
  query_limit_and_window
    ⟨[("w", ⟨"w"⟩)], [⟨"j1", "w", 1, "", "d", "", 90000⟩], 1, [], "logs", [], []⟩
    86400 172800 5 [⟨"j1", "w", 1, "", "d", "", 90000⟩] (by decide) rfl

/-- C6 counterexample: `before` is 15:00:00 on day 0 (`t = 54000`) and
`after` is midnight of day 1, yet the row created at 00:00:10 on day 0
(`created_at = 10`, strictly before `before`) is returned, because the
bounds are compared at date granularity only.  The claim's closed
interval `[before, after]` is violated. -/
theorem query_returns_row_outside_window :
    (Query ⟨[("w", ⟨"w"⟩)], [⟨"j1", "w", 1, "", "d", "", 10⟩], 1, [],
        "logs", [], []⟩ 54000 86400 5 none).1 =
      .ok [⟨"j1", "w", 1, "", "d", "", 10⟩] ∧
    (10 : Nat) < 54000 := by
  exact ⟨rfl, by decide⟩

/-- Split a character list at spaces (accumulator holds the current field
reversed) — the field structure a cron parser reads off the expression. -/
def splitOnSpaceAux : List Char → List Char → List (List Char)
  | [], acc => [acc.reverse]
  | c :: cs, acc =>
    if c = ' ' then acc.reverse :: splitOnSpaceAux cs []
    else splitOnSpaceAux cs (c :: acc)

/-- The whitespace-separated fields of a cron expression string. -/
def cronFields (s : String) : List String :=
  (splitOnSpaceAux s.data []).map String.mk

theorem digitChar_ne_space : ∀ k, k < 10 → digitChar k ≠ ' ' := by decide

theorem natDigits_ne_space (n : Nat) : ∀ c ∈ natDigits n, c ≠ ' ' := by
  induction n using Nat.strong_induction_on with
  | _ n ih =>
    intro c hc
    unfold natDigits at hc
    by_cases h10 : n < 10
    · rw [dif_pos h10] at hc
      simp only [List.mem_singleton] at hc
      subst hc
      exact digitChar_ne_space n h10
    · rw [dif_neg h10] at hc
      rw [List.mem_append] at hc
      rcases hc with hc | hc
      · exact ih (n / 10) (Nat.div_lt_self (by omega) (by omega)) c hc
      · simp only [List.mem_singleton] at hc
        subst hc
        exact digitChar_ne_space _ (Nat.mod_lt _ (by omega))

theorem splitOnSpaceAux_nospace (a : List Char) (ha : ∀ c ∈ a, c ≠ ' ')
    (acc : List Char) : splitOnSpaceAux a acc = [acc.reverse ++ a] := by
  induction a generalizing acc with
  | nil => simp [splitOnSpaceAux]
  | cons c cs ih =>
    have hc : ¬ c = ' ' := ha c (by simp)
    simp only [splitOnSpaceAux, if_neg hc]
    rw [ih (fun x hx => ha x (by simp [hx])) (c :: acc)]
    simp

theorem splitOnSpaceAux_append (a : List Char) (ha : ∀ c ∈ a, c ≠ ' ')
    (rest acc : List Char) :
    splitOnSpaceAux (a ++ ' ' :: rest) acc =
      (acc.reverse ++ a) :: splitOnSpaceAux rest [] := by
  induction a generalizing acc with
  | nil => simp [splitOnSpaceAux]
  | cons c cs ih =>
    have hc : ¬ c = ' ' := ha c (by simp)
    rw [List.cons_append]
    simp only [splitOnSpaceAux, if_neg hc]
    rw [ih (fun x hx => ha x (by simp [hx])) (c :: acc)]
    simp

theorem splitFields5 (a b c d e : List Char)
    (ha : ∀ x ∈ a, x ≠ ' ') (hb : ∀ x ∈ b, x ≠ ' ')
    (hc : ∀ x ∈ c, x ≠ ' ') (hd : ∀ x ∈ d, x ≠ ' ')
    (he : ∀ x ∈ e, x ≠ ' ') :
    splitOnSpaceAux (a ++ ' ' :: (b ++ ' ' :: (c ++ ' ' :: (d ++ ' ' ::
        (e ++ [' ', '*']))))) [] = [a, b, c, d, e, ['*']] := by
  have h1 : (e ++ [' ', '*']) = e ++ ' ' :: ['*'] := rfl
  rw [h1]
  rw [splitOnSpaceAux_append _ ha _ _]
  rw [splitOnSpaceAux_append _ hb _ _]
  rw [splitOnSpaceAux_append _ hc _ _]
  rw [splitOnSpaceAux_append _ hd _ _]
  rw [splitOnSpaceAux_append _ he _ _]
  rw [splitOnSpaceAux_nospace ['*'] (by decide) []]
  simp

theorem nowCron_data (t : Nat) : (nowCron t).data =
    natDigits (timeSecond (t+1)) ++ ' ' :: (natDigits (timeMinute (t+1)) ++
      ' ' :: (natDigits (timeHour (t+1)) ++ ' ' :: (natDigits (timeDay (t+1)) ++
        ' ' :: (natDigits (timeMonth (t+1)) ++ [' ', '*']))))  := rfl

/-- C7: for every submission instant `t`, `Queue`'s `nowCron` expression
is built from the instant `t + 1` second: it has exactly six
whitespace-separated fields, the first five being the decimal second,
minute, hour, day-of-month and month of `t + 1` (computed on the
absolute instant, so carries across minute/hour/day/month boundaries
are taken), and the day-of-week field being the wildcard `*`. -/
theorem nowCron_one_shot_fields (t : Nat) :
    cronFields (nowCron t) =
      [natRepr (timeSecond (t+1)), natRepr (timeMinute (t+1)),
       natRepr (timeHour (t+1)), natRepr (timeDay (t+1)),
       natRepr (timeMonth (t+1)), "*"] := by
  unfold cronFields
  rw [nowCron_data t]
  rw [splitFields5 _ _ _ _ _ (natDigits_ne_space _) (natDigits_ne_space _)
    (natDigits_ne_space _) (natDigits_ne_space _) (natDigits_ne_space _)]
  rfl
